import Mathlib

/-!
Verification of the ABM agent RAG pipeline (src/lib/rag.ts, src/lib/scraper.ts,
src/app/api/abm/route.ts and the SQL setup script) against its specification.

The TypeScript source is shallowly embedded: external collaborators (Supabase,
OpenAI, You.com, the scraping fetch) are parameters of the pipeline functions,
given as `Except`/outcome values; the pure data flow of the source is translated
function by function.
-/

namespace ABM

/-- A research citation (src/lib/youcom.ts, interface Citation). -/
structure Citation where
  text : String
  url : String
  title : Option String
deriving DecidableEq, Repr

/-- Scraper metadata (src/lib/scraper.ts, ScrapedCompanyData.metadata). -/
structure ScrapeMeta where
  title : Option String
  keywords : Option String
  about : Option String
deriving DecidableEq, Repr

/-- Scraped company profile (src/lib/scraper.ts, ScrapedCompanyData). -/
structure ScrapedCompanyData where
  name : String
  description : String
  domain : String
  metadata : Option ScrapeMeta
deriving DecidableEq, Repr

/-- JavaScript truthiness of a string: truthy iff non-empty. -/
def truthyStr (s : String) : Bool := !(s == "")

/-- JavaScript truthiness of an optional string (undefined and the empty string
are falsy). -/
def optTruthy : Option String → Bool
  | some a => truthyStr a
  | none => false

/-! ### Citation deduplication (src/lib/rag.ts lines 159-162)

The source deduplicates via `new Map(allCitations.map((c) => [c.url, c])).values()`.
A JavaScript Map iterates keys in first-insertion order and `set` on an existing
key overwrites the value in place, so we model the Map as an association list
with in-place overwrite. -/

/-- One `Map.set` step: overwrite the value at an existing key in place,
otherwise append the new binding at the end. -/
def mapInsert (m : List (String × Citation)) (k : String) (v : Citation) :
    List (String × Citation) :=
  if m.any (fun p => p.1 == k) then
    m.map (fun p => if p.1 == k then (k, v) else p)
  else m ++ [(k, v)]

/-- Fold the pair list into the Map, starting from accumulator `m`. -/
def mapFromPairsAux (m : List (String × Citation)) :
    List (String × Citation) → List (String × Citation)
  | [] => m
  | p :: ps => mapFromPairsAux (mapInsert m p.1 p.2) ps

/-- `new Map(pairs)` built from an empty Map. -/
def mapFromPairs (ps : List (String × Citation)) : List (String × Citation) :=
  mapFromPairsAux [] ps

/-- URL-keyed deduplication of citations:
`Array.from(new Map(cs.map((c) => [c.url, c])).values())`. -/
def dedupCitations (cs : List Citation) : List Citation :=
  (mapFromPairs (cs.map (fun c => (c.url, c)))).map Prod.snd

/-! ### Chunk assembly (src/lib/rag.ts lines 115-137) -/

/-- The synthetic citation attached to profile-derived chunks
(src/lib/rag.ts lines 121 and 126). -/
def syntheticCitation (d : ScrapedCompanyData) : Citation :=
  { text := "", url := "https://" ++ d.domain, title := some d.name }

/-- The optional chain `scrapedData.metadata?.about`. -/
def metadataAbout (d : ScrapedCompanyData) : Option String :=
  d.metadata.bind (fun m => m.about)

/-- Text of the name+description chunk (src/lib/rag.ts line 120). -/
def descChunkText (d : ScrapedCompanyData) : String :=
  "Company: " ++ d.name ++ "\nDescription: " ++ d.description

/-- The `textChunks` array as pushed by src/lib/rag.ts lines 115-133. -/
def buildTextChunks (d : ScrapedCompanyData) (ycs : List Citation) : List String :=
  (if truthyStr d.description then [descChunkText d] else [])
    ++ (if optTruthy (metadataAbout d) then
          ["About: " ++ (metadataAbout d).getD ""] else [])
    ++ ycs.map (fun c => c.text)

/-- The `chunkCitations` array as pushed by src/lib/rag.ts lines 115-133. -/
def buildChunkCitations (d : ScrapedCompanyData) (ycs : List Citation) : List Citation :=
  (if truthyStr d.description then [syntheticCitation d] else [])
    ++ (if optTruthy (metadataAbout d) then [syntheticCitation d] else [])
    ++ ycs

/-- The chunk list as a list of (text, citation) pairs, pairing the two arrays
positionally as the rest of the pipeline does. -/
def buildChunks (d : ScrapedCompanyData) (ycs : List Citation) :
    List (String × Citation) :=
  (buildTextChunks d ycs).zip (buildChunkCitations d ycs)

/-! ### Embed and persist (src/lib/rag.ts, createAndStoreEmbeddings, lines 41-46) -/

/-- A record as built by createAndStoreEmbeddings before insertion.  The
`embedding` field models the JavaScript access `embeddings[idx]`, which is
undefined when the index is out of range; the `citations` field models
`citations[idx] ? [citations[idx]] : []`, where any defined object is truthy. -/
structure InsertRecord where
  run_id : String
  text : String
  chunk_index : Nat
  embedding : Option (List ℚ)
  citations : List Citation
deriving DecidableEq, Repr

/-- The record list built by `texts.map((text, idx) => ({...}))`
(src/lib/rag.ts lines 41-46). -/
def mkRecords (runId : String) (texts : List String) (embeddings : List (List ℚ))
    (citations : List Citation) : List InsertRecord :=
  (List.range texts.length).map (fun idx =>
    { run_id := runId
      text := (texts[idx]?).getD ""
      chunk_index := idx
      embedding := embeddings[idx]?
      citations := match citations[idx]? with
        | some c => [c]
        | none => [] })

/-! ### SQL similarity search (src/unnamed/part_000, match_abm_insights) -/

/-- A stored row of the abm_insights table (src/unnamed/part_000). -/
structure DbRow where
  run_id : String
  text : String
  chunk_index : Nat
  embedding : List ℚ
  citations : List Citation
deriving DecidableEq, Repr

/-- The WHERE clause run scoping:
`match_abm_insights.run_id IS NULL OR abm_insights.run_id = match_abm_insights.run_id`. -/
def scopeOk (runId : Option String) (r : DbRow) : Bool :=
  match runId with
  | none => true
  | some i => r.run_id == i

/-- Row comparison by ascending cosine distance to the query embedding
(the ORDER BY of match_abm_insights).  The cosine-distance operator `<=>`
is an abstract parameter `dist`. -/
def distLE (dist : List ℚ → List ℚ → ℚ) (q : List ℚ) (a b : DbRow) : Prop :=
  dist a.embedding q ≤ dist b.embedding q

instance (dist : List ℚ → List ℚ → ℚ) (q : List ℚ) : DecidableRel (distLE dist q) :=
  fun a b => inferInstanceAs (Decidable (_ ≤ _))

instance (dist : List ℚ → List ℚ → ℚ) (q : List ℚ) : IsTotal DbRow (distLE dist q) :=
  ⟨fun a b => le_total _ _⟩

instance (dist : List ℚ → List ℚ → ℚ) (q : List ℚ) : IsTrans DbRow (distLE dist q) :=
  ⟨fun _ _ _ h h' => le_trans h h'⟩

/-- The SQL function match_abm_insights (src/unnamed/part_000 lines 50-60):
filter rows in scope with `1 - dist > threshold` (strict), order by ascending
distance, and return the first `count`. -/
def matchAbmInsights (dist : List ℚ → List ℚ → ℚ) (rows : List DbRow)
    (q : List ℚ) (threshold : ℚ) (count : ℕ) (runId : Option String) : List DbRow :=
  (((rows.filter (fun r => scopeOk runId r
        && decide (threshold < 1 - dist r.embedding q))).insertionSort
      (distLE dist q)).take count)

/-! ### The RAG pipeline (src/lib/rag.ts, similaritySearch and runRAGPipeline)

External calls are supplied by a `RagEnv`; each pipeline run also produces the
list of external calls it performed, used to state in which order failures cut
the pipeline short. -/

/-- The parsed generation response `JSON.parse(responseText) as ABMInsights`:
a JSON object that may lack any of the four fields. -/
structure PartialInsights where
  insights : Option (List String)
  email_subject : Option String
  email_body : Option String
  citations : Option (List String)
deriving DecidableEq, Repr

/-- A row returned by the store for similaritySearch, before the
`content_json?.text || ''` and `citations || []` coalescing. -/
structure StoredRow where
  text : Option String
  citations : Option (List Citation)
deriving DecidableEq, Repr

/-- A retrieved chunk `{ text, citations }` (src/lib/rag.ts line 68). -/
structure RetrievedChunk where
  text : String
  citations : List Citation
deriving DecidableEq, Repr

/-- The mapping applied to each returned row
(src/lib/rag.ts lines 88-91 and 94-97). -/
def toChunk (r : StoredRow) : RetrievedChunk :=
  { text := r.text.getD "", citations := r.citations.getD [] }

/-- Outcome of the awaited supabase.rpc call: a thrown exception, or a
returned `{ data, error }` value. -/
inductive RpcOutcome where
  | throw (e : String)
  | ret (data : Option (List StoredRow)) (err : Option String)
deriving DecidableEq, Repr

/-- External calls made by the pipeline, in order. -/
inductive Ev where
  | embedBatchCall
  | insertCall
  | queryEmbedCall
  | rpcCall
  | fallbackQueryCall
  | generateCall
deriving DecidableEq, Repr

/-- The external collaborators of the pipeline (OpenAI embeddings and chat,
Supabase insert / rpc / fallback select, JSON.parse). -/
structure RagEnv where
  embedBatch : List String → Except String (List (List ℚ))
  insertRecords : List InsertRecord → Except String Unit
  embedQuery : String → Except String (List ℚ)
  searchRpc : List ℚ → String → Nat → RpcOutcome
  fallbackQuery : String → Nat → Except String (List StoredRow)
  generate : String → Except String (Option String)
  parseInsights : String → Except String PartialInsights

/-- similaritySearch (src/lib/rag.ts lines 64-102): the rpc call, the non-rpc
fallback select when the rpc returns an error value, and the outer catch that
turns any thrown exception into the empty list. -/
def similaritySearchM (env : RagEnv) (q : List ℚ) (runId : String) (limit : Nat) :
    List RetrievedChunk × List Ev :=
  match env.searchRpc q runId limit with
  | .throw _ => ([], [Ev.rpcCall])
  | .ret data err =>
    match err with
    | some _ =>
      match env.fallbackQuery runId limit with
      | .error _ => ([], [Ev.rpcCall, Ev.fallbackQueryCall])
      | .ok rows => (rows.map toChunk, [Ev.rpcCall, Ev.fallbackQueryCall])
    | none => ((data.getD []).map toChunk, [Ev.rpcCall])

/-- The numbered context block (src/lib/rag.ts lines 155-157). -/
def mkContext (chunks : List RetrievedChunk) : String :=
  String.intercalate "\n\n"
    ((List.range chunks.length).map (fun idx =>
      "[" ++ toString (idx + 1) ++ "] " ++ (chunks[idx]?.map (fun c => c.text)).getD ""))

/-- ABM_PROMPTS.generateRAGContext (src/lib/prompts.ts, whose source appears
in src/README.md lines 322-329 after the document separator): the fixed
retrieval-query template parameterized only by the company name. -/
def generateRAGContext (companyName : String) : String :=
  "Generate relevant ABM insights for " ++ companyName
    ++ ". Focus on:\n- Recent company news and developments\n- Product launches or updates\n- Industry trends affecting the company\n- Potential pain points or opportunities\n- Key decision makers or team information"

/-- The citationsText block of ABM_PROMPTS.generateInsights
(src/README.md lines 293-295): each citation rendered as
index+1, dot, its text, then a Source line showing the title when truthy and
otherwise the url, the entries joined by blank lines. -/
def citationsText (citations : List Citation) : String :=
  String.intercalate "\n\n"
    ((List.range citations.length).map (fun i =>
      toString (i + 1) ++ ". "
        ++ ((citations[i]?.map (fun c => c.text)).getD "")
        ++ "\n   Source: "
        ++ ((citations[i]?.map (fun c =>
              if optTruthy c.title then c.title.getD "" else c.url)).getD "")))

/-- ABM_PROMPTS.generateInsights (src/lib/prompts.ts, whose source appears in
src/README.md lines 292-320 after the document separator): the generation
prompt embedding the company name, the company-information block and the
numbered citation list. -/
def generateInsights (companyName : String) (scrapedData : String)
    (citations : List Citation) : String :=
  "You are an ABM (Account-Based Marketing) research assistant. Generate personalized insights and outreach content for "
    ++ companyName
    ++ ".\n\nCompany Information:\n"
    ++ scrapedData
    ++ "\n\nRecent Research & Citations:\n"
    ++ citationsText citations
    ++ "\n\nGenerate a comprehensive ABM analysis with the following structure:\n1. Key Insights (3-5 bullet points about the company\x27s current state, recent news, or opportunities)\n2. Personalized Email Subject Line (compelling, specific to recent news/insights)\n3. Personalized Email Body (professional, warm, references specific recent developments, includes a clear value proposition)\n4. Citations (list of source URLs used)\n\nReturn your response as a JSON object with this exact structure:\n\x7b\n  \"insights\": [\"insight 1\", \"insight 2\", ...],\n  \"email_subject\": \"Subject line here\",\n  \"email_body\": \"Full email body here\",\n  \"citations\": [\"url1\", \"url2\", ...]\n\x7d\n\nBe specific, reference recent news or developments, and make the outreach feel personalized and relevant."

/-- The default `'\x7b\x7d'` used when the completion content is absent
(src/lib/rag.ts line 187). -/
def jsonEmptyObj : String := "\x7b\x7d"

/-- The citation backfill (src/lib/rag.ts lines 191-193):
`if (!parsed.citations || parsed.citations.length === 0)` replace them with
the deduplicated citation URLs. -/
def backfillCitations (p : PartialInsights) (uniq : List Citation) :
    PartialInsights :=
  match p.citations with
  | none => { p with citations := some (uniq.map (fun c => c.url)) }
  | some [] => { p with citations := some (uniq.map (fun c => c.url)) }
  | some _ => p

/-- The body of the try block of runRAGPipeline (src/lib/rag.ts lines 113-195),
returning either the parsed insights or the first thrown error, together with
the trace of external calls made. -/
def runCore (env : RagEnv) (runId company : String) (d : ScrapedCompanyData)
    (ycs : List Citation) : Except String PartialInsights × List Ev :=
  let texts := buildTextChunks d ycs
  let cits := buildChunkCitations d ycs
  if texts.isEmpty then (.error "No text chunks to process", [])
  else
    match env.embedBatch texts with
    | .error e => (.error e, [Ev.embedBatchCall])
    | .ok embs =>
      match env.insertRecords (mkRecords runId texts embs cits) with
      | .error e => (.error e, [Ev.embedBatchCall, Ev.insertCall])
      | .ok _ =>
        match env.embedQuery (generateRAGContext company) with
        | .error e => (.error e, [Ev.embedBatchCall, Ev.insertCall, Ev.queryEmbedCall])
        | .ok qemb =>
          let sr := similaritySearchM env qemb runId 5
          let evs := [Ev.embedBatchCall, Ev.insertCall, Ev.queryEmbedCall] ++ sr.2
          let contextText := mkContext sr.1
          let uniq := dedupCitations (sr.1.flatMap (fun c => c.citations))
          let prompt := generateInsights company
            ("Company: " ++ d.name ++ "\n" ++ d.description ++ "\n\n" ++ contextText)
            uniq
          match env.generate prompt with
          | .error e => (.error e, evs ++ [Ev.generateCall])
          | .ok content =>
            match env.parseInsights (content.getD jsonEmptyObj) with
            | .error e => (.error e, evs ++ [Ev.generateCall])
            | .ok parsed => (.ok (backfillCitations parsed uniq), evs ++ [Ev.generateCall])

/-- The fallback insights built by the outer catch of runRAGPipeline
(src/lib/rag.ts lines 196-210). -/
def fallbackInsights (d : ScrapedCompanyData) (ycs : List Citation) :
    PartialInsights :=
  { insights := some ["Company: " ++ d.name, "Domain: " ++ d.domain,
      "Research completed with available data"]
    email_subject := some ("Opportunity for " ++ d.name)
    email_body := some ("Hello " ++ d.name
      ++ " team,\n\nI wanted to reach out regarding potential collaboration opportunities.\n\nBest regards")
    citations := some (ycs.map (fun c => c.url)) }

/-- runRAGPipeline (src/lib/rag.ts lines 107-211): the try body, with every
thrown error converted to the fallback insights. -/
def runRAGPipeline (env : RagEnv) (runId company : String)
    (d : ScrapedCompanyData) (ycs : List Citation) : PartialInsights :=
  match (runCore env runId company d ycs).1 with
  | .ok p => p
  | .error _ => fallbackInsights d ycs

/-! ### The scraper fallback (src/lib/scraper.ts lines 84-93) -/

/-- `domain.replace(/^https?:\/\//, '')` followed by `.replace(/^www\./, '')`. -/
def cleanDomain (d : String) : String :=
  let s := if d.startsWith "https://" then d.drop 8
    else if d.startsWith "http://" then d.drop 7 else d
  if s.startsWith "www." then s.drop 4 else s

/-- The minimal profile returned by scrapeCompany when its fetch or parse
throws (src/lib/scraper.ts lines 84-93). -/
def scrapeFallback (domain : String) : ScrapedCompanyData :=
  { name := ((cleanDomain domain).splitOn ".").headD ""
    description := "Company information for " ++ cleanDomain domain
    domain := cleanDomain domain
    metadata := some { title := none, keywords := none, about := none } }

/-! ### The POST handler (src/app/api/abm/route.ts lines 17-149)

The run store is modelled by the time-ordered list of states of the created
run row; each supabase update appends the new state.  The n8n webhook step is
omitted: its try/catch discards its outcome and it touches neither the
response nor the run row. -/

/-- Run status column of abm_runs. -/
inductive RunStatus where
  | processing
  | completed
  | failed
deriving DecidableEq, Repr

/-- The `fullResult` stored into result_json (src/app/api/abm/route.ts
lines 70-74). -/
structure FullResult where
  insights : PartialInsights
  scraped : ScrapedCompanyData
  you_com_citations : Nat
deriving DecidableEq, Repr

/-- A state of the created abm_runs row. -/
structure RunRow where
  company : String
  domain : String
  status : RunStatus
  result : Option FullResult
deriving DecidableEq, Repr

/-- The JSON responses the POST handler can produce. -/
inductive RouteResponse where
  | validationError
  | createRunFailed
  | success (run_id company domain : String) (insights : PartialInsights)
      (scraped : ScrapedCompanyData) (youComCount : Nat)
  | processFailed (run_id : String) (message : String)
  | internalError
deriving DecidableEq, Repr

/-- The insights carried by a response, if any. -/
def respInsights : RouteResponse → Option PartialInsights
  | .success _ _ _ ins _ _ => some ins
  | _ => none

/-- Outcome of an awaited supabase update: thrown, returned an error value
(which the handler never checks), or applied. -/
inductive UpdateOutcome where
  | throw (e : String)
  | errVal
  | ok
deriving DecidableEq, Repr

/-- The collaborators of the POST handler.  `createRun` is the abm_runs
insert: thrown, or returning runData (`none` models `runError || !runData`);
`scrapeOutcome` is the body of scrapeCompany before its own catch;
`youcom` is the combined You.com step before its local catch. -/
structure RouteEnv where
  createRun : Except String (Option String)
  scrapeOutcome : Except String ScrapedCompanyData
  youcom : Except String (List Citation)
  rag : RagEnv
  updateCompleted : UpdateOutcome
  updateFailed : UpdateOutcome

/-- The POST handler (src/app/api/abm/route.ts lines 17-149): request
validation, run creation, the scrape and research steps with their local
catches, the pipeline, the completed/failed status writes with the inner and
outer catch, and the produced response.  Returns the response together with
the history of states of the created run row. -/
def handlePOST (env : RouteEnv) (company domain : String) :
    RouteResponse × List RunRow :=
  if company == "" || domain == "" then (.validationError, [])
  else
    match env.createRun with
    | .error _ => (.internalError, [])
    | .ok none => (.createRunFailed, [])
    | .ok (some runId) =>
      let s0 : RunRow := ⟨company, domain, .processing, none⟩
      let scraped := match env.scrapeOutcome with
        | .ok d => d
        | .error _ => scrapeFallback domain
      let ycs := match env.youcom with
        | .ok cs => cs
        | .error _ => []
      let ins := runRAGPipeline env.rag runId company scraped ycs
      let fullResult : FullResult := ⟨ins, scraped, ycs.length⟩
      match env.updateCompleted with
      | .ok => (.success runId company domain ins scraped ycs.length,
          [s0, { s0 with status := .completed, result := some fullResult }])
      | .errVal => (.success runId company domain ins scraped ycs.length, [s0])
      | .throw e =>
        match env.updateFailed with
        | .ok => (.processFailed runId e, [s0, { s0 with status := .failed }])
        | .errVal => (.processFailed runId e, [s0])
        | .throw _ => (.internalError, [s0])

/-! ### Claim-side chunk descriptions and concrete test environments -/

/-- The chunk list as claim C5 words it: the chunk for the metadata about
field is emitted whenever that field is present. -/
def claimedChunks (d : ScrapedCompanyData) (ycs : List Citation) :
    List (String × Citation) :=
  (if truthyStr d.description then [(descChunkText d, syntheticCitation d)] else [])
    ++ (match metadataAbout d with
        | some a => [("About: " ++ a, syntheticCitation d)]
        | none => [])
    ++ ycs.map (fun c => (c.text, c))

/-- The chunk list with the about condition as the code has it: present and
non-empty (JavaScript truthiness). -/
def amendedChunks (d : ScrapedCompanyData) (ycs : List Citation) :
    List (String × Citation) :=
  (if truthyStr d.description then [(descChunkText d, syntheticCitation d)] else [])
    ++ (if optTruthy (metadataAbout d) then
          [("About: " ++ (metadataAbout d).getD "", syntheticCitation d)] else [])
    ++ ycs.map (fun c => (c.text, c))

/-- A pipeline environment in which every external call fails. -/
def ragEnvAllFail : RagEnv :=
  { embedBatch := fun _ => .error "embed down"
    insertRecords := fun _ => .error "insert down"
    embedQuery := fun _ => .error "embed down"
    searchRpc := fun _ _ _ => .throw "rpc down"
    fallbackQuery := fun _ _ => .error "select down"
    generate := fun _ => .error "generate down"
    parseInsights := fun _ => .error "parse down" }

/-- A pipeline environment in which every external call succeeds trivially. -/
def ragEnvOk : RagEnv :=
  { embedBatch := fun ts => .ok (ts.map (fun _ => [(1 : ℚ)]))
    insertRecords := fun _ => .ok ()
    embedQuery := fun _ => .ok [(1 : ℚ)]
    searchRpc := fun _ _ _ => .ret (some []) none
    fallbackQuery := fun _ _ => .ok []
    generate := fun _ => .ok (some "ok")
    parseInsights := fun _ => .ok ⟨some [], some "s", some "b", some []⟩ }

/-- ragEnvOk except that the similarity rpc call itself throws. -/
def ragEnvRpcThrows : RagEnv :=
  { ragEnvOk with searchRpc := fun _ _ _ => .throw "rpc down" }

/-- The profile of the example scenario of spec section 8: name Acme, empty
description, empty metadata object. -/
def acmeProfile : ScrapedCompanyData :=
  { name := "Acme", description := "", domain := "acme.com"
    metadata := some { title := none, keywords := none, about := none } }

/-- Handler environment for the Acme scenario: run created, scrape returns
the Acme profile, research returns no citations, store updates succeed. -/
def routeEnvAcme : RouteEnv :=
  { createRun := .ok (some "r1")
    scrapeOutcome := .ok acmeProfile
    youcom := .ok []
    rag := ragEnvOk
    updateCompleted := .ok
    updateFailed := .ok }

/-- Handler environment in which every external collaborator fails but the
run store works. -/
def routeEnvAllFail : RouteEnv :=
  { createRun := .ok (some "r1")
    scrapeOutcome := .error "fetch failed"
    youcom := .error "youcom failed"
    rag := ragEnvAllFail
    updateCompleted := .ok
    updateFailed := .ok }

/-- Handler environment in which the completed-status write throws and the
failed-status write succeeds. -/
def routeEnvUpdateThrows : RouteEnv :=
  { createRun := .ok (some "r1")
    scrapeOutcome := .ok ⟨"Acme", "D", "acme.com", none⟩
    youcom := .ok []
    rag := ragEnvOk
    updateCompleted := .throw "db down"
    updateFailed := .ok }

/-! ## Lemmas about the Map model used by citation deduplication -/


theorem head?_filter_eq_find? {α : Type} (p : α → Bool) (l : List α) :
    (l.filter p).head? = l.find? p := by
  induction l with
  | nil => rfl
  | cons a l ih =>
    cases hp : p a with
    | true => simp [List.filter_cons, hp]
    | false => simp [List.filter_cons, hp, ih]

theorem getLast?_filter_eq_find?_reverse {α : Type} (p : α → Bool) (l : List α) :
    (l.filter p).getLast? = l.reverse.find? p := by
  rw [List.getLast?_eq_head?_reverse, ← List.filter_reverse, head?_filter_eq_find?]

theorem mapInsert_pos (m : List (String × Citation)) (k : String) (v : Citation)
    (h : m.any (fun p => p.1 == k) = true) :
    mapInsert m k v = m.map (fun p => if p.1 == k then (k, v) else p) := by
  unfold mapInsert
  rw [h]
  rfl

theorem mapInsert_neg (m : List (String × Citation)) (k : String) (v : Citation)
    (h : m.any (fun p => p.1 == k) = false) :
    mapInsert m k v = m ++ [(k, v)] := by
  unfold mapInsert
  rw [h]
  rfl

theorem fst_overwrite (k : String) (v : Citation) (p : String × Citation) :
    Prod.fst (if p.1 == k then (k, v) else p) = p.1 := by
  cases hb : p.1 == k with
  | true => simp [hb, (eq_of_beq hb).symm]
  | false => simp [hb]

theorem keys_mapInsert_pos (m : List (String × Citation)) (k : String)
    (v : Citation) (h : m.any (fun p => p.1 == k) = true) :
    (mapInsert m k v).map Prod.fst = m.map Prod.fst := by
  rw [mapInsert_pos m k v h, List.map_map]
  exact List.map_congr_left (fun p _ => fst_overwrite k v p)

theorem keys_mapInsert_neg (m : List (String × Citation)) (k : String)
    (v : Citation) (h : m.any (fun p => p.1 == k) = false) :
    (mapInsert m k v).map Prod.fst = m.map Prod.fst ++ [k] := by
  rw [mapInsert_neg m k v h]
  simp

theorem mem_keys_mapInsert (m : List (String × Citation)) (k a : String)
    (v : Citation) :
    a ∈ (mapInsert m k v).map Prod.fst ↔ a ∈ m.map Prod.fst ∨ a = k := by
  cases h : m.any (fun p => p.1 == k) with
  | true =>
    rw [keys_mapInsert_pos m k v h]
    constructor
    · exact Or.inl
    · rintro (ha | rfl)
      · exact ha
      · rcases List.any_eq_true.mp h with ⟨p, hp, hpk⟩
        exact (eq_of_beq hpk) ▸ List.mem_map_of_mem Prod.fst hp
  | false =>
    rw [keys_mapInsert_neg m k v h]
    simp

theorem nodup_keys_mapInsert (m : List (String × Citation)) (k : String)
    (v : Citation) (h : (m.map Prod.fst).Nodup) :
    ((mapInsert m k v).map Prod.fst).Nodup := by
  cases hh : m.any (fun p => p.1 == k) with
  | true => rw [keys_mapInsert_pos m k v hh]; exact h
  | false =>
    rw [keys_mapInsert_neg m k v hh]
    have hk : k ∉ m.map Prod.fst := by
      intro hmem
      rcases List.mem_map.mp hmem with ⟨p, hp, hpe⟩
      exact List.any_eq_false.mp hh p hp (by rw [hpe]; exact beq_self_eq_true k)
    simp [List.nodup_append, h, hk]

theorem find?_overwrite_ne (m : List (String × Citation)) (k a : String)
    (v : Citation) (hne : (a == k) = false) :
    (m.map (fun p => if p.1 == k then (k, v) else p)).find? (fun p => p.1 == a)
      = m.find? (fun p => p.1 == a) := by
  induction m with
  | nil => rfl
  | cons p ps ih =>
    cases hp : p.1 == k with
    | true =>
      have hka : (k == a) = false := by
        cases hq : k == a with
        | true =>
          rw [eq_of_beq hq] at hne
          simp at hne
        | false => rfl
      have hpa : (p.1 == a) = false := by rw [eq_of_beq hp]; exact hka
      have hfp : (if p.1 == k then (k, v) else p) = (k, v) := if_pos hp
      rw [List.map_cons, hfp]
      simp only [List.find?_cons, hka, hpa]
      exact ih
    | false =>
      have hfp : (if p.1 == k then (k, v) else p) = p := if_neg (by simp [hp])
      rw [List.map_cons, hfp]
      cases hq : p.1 == a with
      | true => simp only [List.find?_cons, hq]
      | false =>
        simp only [List.find?_cons, hq]
        exact ih

theorem find?_overwrite_self (m : List (String × Citation)) (k : String)
    (v : Citation) (h : m.any (fun p => p.1 == k) = true) :
    (m.map (fun p => if p.1 == k then (k, v) else p)).find? (fun p => p.1 == k)
      = some (k, v) := by
  induction m with
  | nil => simp at h
  | cons p ps ih =>
    cases hp : p.1 == k with
    | true =>
      have hfp : (if p.1 == k then (k, v) else p) = (k, v) := if_pos hp
      rw [List.map_cons, hfp]
      simp only [List.find?_cons, beq_self_eq_true]
    | false =>
      have hps : ps.any (fun p => p.1 == k) = true := by
        simp only [List.any_cons, hp, Bool.false_or] at h
        exact h
      have hfp : (if p.1 == k then (k, v) else p) = p := if_neg (by simp [hp])
      rw [List.map_cons, hfp]
      simp only [List.find?_cons, hp]
      exact ih hps

theorem find?_mapInsert_self (m : List (String × Citation)) (k : String)
    (v : Citation) :
    (mapInsert m k v).find? (fun p => p.1 == k) = some (k, v) := by
  cases h : m.any (fun p => p.1 == k) with
  | true =>
    rw [mapInsert_pos m k v h]
    exact find?_overwrite_self m k v h
  | false =>
    rw [mapInsert_neg m k v h, List.find?_append]
    have hnone : m.find? (fun p => p.1 == k) = none :=
      List.find?_eq_none.mpr (fun p hp => by simp [List.any_eq_false.mp h p hp])
    simp [hnone]

theorem find?_mapInsert_ne (m : List (String × Citation)) (k a : String)
    (v : Citation) (hne : (a == k) = false) :
    (mapInsert m k v).find? (fun p => p.1 == a)
      = m.find? (fun p => p.1 == a) := by
  cases h : m.any (fun p => p.1 == k) with
  | true =>
    rw [mapInsert_pos m k v h]
    exact find?_overwrite_ne m k a v hne
  | false =>
    rw [mapInsert_neg m k v h, List.find?_append]
    have hka : (k == a) = false := by
      cases hq : k == a with
      | true => rw [eq_of_beq hq] at hne; simp at hne
      | false => rfl
    have hone : ([(k, v)].find? (fun p => p.1 == a)) = none := by
      simp [List.find?_cons, hka]
    rw [hone]
    cases m.find? (fun p => p.1 == a) <;> rfl

theorem find?_mapFromPairsAux (ps : List (String × Citation)) :
    ∀ (m : List (String × Citation)) (a : String),
      (mapFromPairsAux m ps).find? (fun p => p.1 == a) =
        match ps.reverse.find? (fun p => p.1 == a) with
        | some r => some (a, r.2)
        | none => m.find? (fun p => p.1 == a) := by
  induction ps with
  | nil => intro m a; simp [mapFromPairsAux]
  | cons q ps ih =>
    intro m a
    rw [mapFromPairsAux, ih]
    rw [List.reverse_cons, List.find?_append]
    cases hrev : ps.reverse.find? (fun p => p.1 == a) with
    | some r => simp
    | none =>
      simp only [Option.none_or]
      cases hq : q.1 == a with
      | true =>
        have hqa : q.1 = a := eq_of_beq hq
        subst hqa
        have hsq : [q].find? (fun p => p.1 == q.1) = some q := by
          have : (q.1, q.2) = q := rfl
          simp [List.find?_cons]
        rw [hsq, find?_mapInsert_self m q.1 q.2]
      | false =>
        have hne : (a == q.1) = false := by
          cases hx : a == q.1 with
          | true => rw [eq_of_beq hx] at hq; simp at hq
          | false => rfl
        have hnq : [q].find? (fun p => p.1 == a) = none := by
          simp [List.find?_cons, hq]
        rw [hnq, find?_mapInsert_ne m q.1 a q.2 hne]

theorem mem_keys_mapFromPairsAux (ps : List (String × Citation)) :
    ∀ (m : List (String × Citation)) (a : String),
      a ∈ (mapFromPairsAux m ps).map Prod.fst ↔
        a ∈ m.map Prod.fst ∨ a ∈ ps.map Prod.fst := by
  induction ps with
  | nil => intro m a; simp [mapFromPairsAux]
  | cons q ps ih =>
    intro m a
    rw [mapFromPairsAux, ih, mem_keys_mapInsert]
    simp only [List.map_cons, List.mem_cons]
    tauto

theorem nodup_keys_mapFromPairsAux (ps : List (String × Citation)) :
    ∀ (m : List (String × Citation)), (m.map Prod.fst).Nodup →
      ((mapFromPairsAux m ps).map Prod.fst).Nodup := by
  induction ps with
  | nil => intro m h; exact h
  | cons q ps ih =>
    intro m h
    exact ih _ (nodup_keys_mapInsert m q.1 q.2 h)

theorem wf_mapInsert (m : List (String × Citation)) (k : String) (v : Citation)
    (hm : ∀ p ∈ m, p.1 = p.2.url) (hk : k = v.url) :
    ∀ p ∈ mapInsert m k v, p.1 = p.2.url := by
  intro p hp
  cases h : m.any (fun p => p.1 == k) with
  | true =>
    rw [mapInsert_pos m k v h] at hp
    rcases List.mem_map.mp hp with ⟨q, hq, rfl⟩
    cases hqk : q.1 == k with
    | true => simpa [hqk] using hk
    | false => simpa [hqk] using hm q hq
  | false =>
    rw [mapInsert_neg m k v h] at hp
    rcases List.mem_append.mp hp with hl | hr
    · exact hm p hl
    · rcases List.mem_singleton.mp hr with rfl
      exact hk

theorem wf_mapFromPairsAux (ps : List (String × Citation))
    (hps : ∀ p ∈ ps, p.1 = p.2.url) :
    ∀ (m : List (String × Citation)), (∀ p ∈ m, p.1 = p.2.url) →
      ∀ p ∈ mapFromPairsAux m ps, p.1 = p.2.url := by
  induction ps with
  | nil => intro m hm; exact hm
  | cons q ps ih =>
    intro m hm
    exact ih (fun p hp => hps p (List.mem_cons_of_mem q hp)) _
      (wf_mapInsert m q.1 q.2 hm (hps q (List.mem_cons_self q ps)))

theorem values_urls (m : List (String × Citation))
    (hm : ∀ p ∈ m, p.1 = p.2.url) :
    (m.map Prod.snd).map (fun c => c.url) = m.map Prod.fst := by
  rw [List.map_map]
  exact List.map_congr_left (fun p hp => (hm p hp).symm)

theorem find?_values (m : List (String × Citation))
    (hm : ∀ p ∈ m, p.1 = p.2.url) (u : String) :
    (m.map Prod.snd).find? (fun c => c.url == u)
      = (m.find? (fun p => p.1 == u)).map Prod.snd := by
  induction m with
  | nil => rfl
  | cons p ps ih =>
    have hp : p.1 = p.2.url := hm p (List.mem_cons_self p ps)
    have hrest := ih (fun q hq => hm q (List.mem_cons_of_mem p hq))
    cases hq : p.2.url == u with
    | true =>
      have hfst : (p.1 == u) = true := by rw [hp]; exact hq
      simp only [List.map_cons, List.find?_cons, hq, hfst]
      rfl
    | false =>
      have hfst : (p.1 == u) = false := by rw [hp]; exact hq
      simp only [List.map_cons, List.find?_cons, hq, hfst]
      exact hrest

theorem mapFromPairsAux_of_nodup (ps : List (String × Citation)) :
    ∀ (m : List (String × Citation)),
      (((m ++ ps).map Prod.fst)).Nodup → mapFromPairsAux m ps = m ++ ps := by
  induction ps with
  | nil => intro m _; simp [mapFromPairsAux]
  | cons q ps ih =>
    intro m h
    have hq : m.any (fun p => p.1 == q.1) = false := by
      apply List.any_eq_false.mpr
      intro p hp hpq
      have hmem : q.1 ∈ m.map Prod.fst :=
        (eq_of_beq hpq) ▸ List.mem_map_of_mem Prod.fst hp
      have hsplit := List.nodup_append.mp (by simpa using h)
      exact hsplit.2.2 hmem (by simp)
    have hins : mapInsert m q.1 q.2 = m ++ [q] := mapInsert_neg m q.1 q.2 hq
    rw [mapFromPairsAux, hins, ih (m ++ [q]) (by simpa [List.append_assoc] using h)]
    simp

theorem claim_C3_dedup (cs : List Citation) :
    dedupCitations (dedupCitations cs) = dedupCitations cs ∧
    ((dedupCitations cs).map (fun c => c.url)).Nodup ∧
    (∀ u, u ∈ (dedupCitations cs).map (fun c => c.url) ↔
      u ∈ cs.map (fun c => c.url)) ∧
    (∀ u, (dedupCitations cs).find? (fun c => c.url == u) =
      (cs.filter (fun c => c.url == u)).getLast?) := by
  have hwf_pairs : ∀ p ∈ cs.map (fun c => (c.url, c)), p.1 = p.2.url := by
    rintro p hp
    rcases List.mem_map.mp hp with ⟨c, _, rfl⟩
    rfl
  have hwf : ∀ p ∈ mapFromPairs (cs.map (fun c => (c.url, c))), p.1 = p.2.url :=
    wf_mapFromPairsAux _ hwf_pairs [] (by simp)
  have hkeysnd : ((mapFromPairs (cs.map (fun c => (c.url, c)))).map Prod.fst).Nodup :=
    nodup_keys_mapFromPairsAux _ [] (by simp)
  have hurls : (dedupCitations cs).map (fun c => c.url)
      = (mapFromPairs (cs.map (fun c => (c.url, c)))).map Prod.fst := by
    unfold dedupCitations
    exact values_urls _ hwf
  refine ⟨?_, ?_, ?_, ?_⟩
  · -- idempotence
    have hnd2 : ((([] : List (String × Citation))
        ++ (dedupCitations cs).map (fun c => (c.url, c))).map Prod.fst).Nodup := by
      rw [List.nil_append, List.map_map]
      show ((dedupCitations cs).map (fun c => c.url)).Nodup
      rw [hurls]
      exact hkeysnd
    have hstep : dedupCitations (dedupCitations cs)
        = (mapFromPairsAux [] ((dedupCitations cs).map (fun c => (c.url, c)))).map
            Prod.snd := rfl
    rw [hstep, mapFromPairsAux_of_nodup _ [] hnd2, List.nil_append, List.map_map]
    show (dedupCitations cs).map (fun c => c) = dedupCitations cs
    simp
  · rw [hurls]; exact hkeysnd
  · intro u
    rw [hurls]
    unfold mapFromPairs
    rw [mem_keys_mapFromPairsAux]
    constructor
    · rintro (h | h)
      · simp at h
      · rw [List.map_map] at h
        simpa using h
    · intro h
      refine Or.inr ?_
      rw [List.map_map]
      simpa using h
  · intro u
    unfold dedupCitations mapFromPairs
    rw [find?_values _ (by
      intro p hp
      exact hwf p hp) u, find?_mapFromPairsAux]
    rw [getLast?_filter_eq_find?_reverse]
    have hrev : (cs.map (fun c => (c.url, c))).reverse
        = cs.reverse.map (fun c => (c.url, c)) := by
      rw [List.map_reverse]
    rw [hrev, List.find?_map]
    cases hfr : cs.reverse.find? ((fun p => p.1 == u) ∘ fun c => (c.url, c)) with
    | none =>
      have : cs.reverse.find? (fun c => c.url == u) = none := hfr
      rw [this]
      rfl
    | some c =>
      have hfr2 : cs.reverse.find? (fun c => c.url == u) = some c := hfr
      have hcu := List.find?_some hfr2
      have : c.url = u := eq_of_beq (by simpa using hcu)
      rw [hfr2]
      simp [this]

/-- Witness for claim C3 at the example of spec section 8: two citations with
the same URL in order A then B deduplicate to the single entry B, and the
result is a fixed point. -/
theorem claim_C3_dedup_witness :
    dedupCitations (dedupCitations
        [Citation.mk "A text" "https://x.com" none,
         Citation.mk "B text" "https://x.com" none])
      = dedupCitations
        [Citation.mk "A text" "https://x.com" none,
         Citation.mk "B text" "https://x.com" none] ∧
    (dedupCitations
        [Citation.mk "A text" "https://x.com" none,
         Citation.mk "B text" "https://x.com" none]).find?
        (fun c => c.url == "https://x.com")
      = some (Citation.mk "B text" "https://x.com" none) ∧
    dedupCitations
        [Citation.mk "A text" "https://x.com" none,
         Citation.mk "B text" "https://x.com" none]
      = [Citation.mk "B text" "https://x.com" none] := by
  refine ⟨(claim_C3_dedup _).1, ?_, by decide⟩
  rw [(claim_C3_dedup _).2.2.2]
  decide

/-! ## Claim C4: similarity search semantics -/

/-- Claim C4: match_abm_insights (as invoked by similaritySearch with threshold
0.7 and limit 5) returns a stored record only when its similarity
(1 minus cosine distance) is strictly greater than the threshold; a match with
similarity exactly 0.7 is excluded; results are ordered by ascending cosine
distance; and at most 5 records are returned. -/
theorem claim_C4_similarity (dist : List ℚ → List ℚ → ℚ) (rows : List DbRow)
    (q : List ℚ) (runId : Option String) :
    (∀ r ∈ matchAbmInsights dist rows q (7/10) 5 runId,
      (7 : ℚ)/10 < 1 - dist r.embedding q) ∧
    (∀ r ∈ rows, 1 - dist r.embedding q = 7/10 →
      r ∉ matchAbmInsights dist rows q (7/10) 5 runId) ∧
    List.Sorted (distLE dist q) (matchAbmInsights dist rows q (7/10) 5 runId) ∧
    (matchAbmInsights dist rows q (7/10) 5 runId).length ≤ 5 := by
  have hmem : ∀ r ∈ matchAbmInsights dist rows q (7/10) 5 runId,
      (7 : ℚ)/10 < 1 - dist r.embedding q := by
    intro r hr
    unfold matchAbmInsights at hr
    have hr1 := List.mem_of_mem_take hr
    have hr2 := (List.perm_insertionSort (distLE dist q) _).mem_iff.mp hr1
    have hpred := List.of_mem_filter hr2
    have := (Bool.and_eq_true _ _).mp hpred
    exact of_decide_eq_true this.2
  refine ⟨hmem, ?_, ?_, ?_⟩
  · intro r _ heq hin
    have hlt := hmem r hin
    rw [heq] at hlt
    exact lt_irrefl _ hlt
  · unfold matchAbmInsights
    exact List.Pairwise.sublist (List.take_sublist _ _)
      (List.sorted_insertionSort (distLE dist q) _)
  · unfold matchAbmInsights
    simp

/-- Witness for claim C4: with the distance operator reading the stored head
entry, a row at distance 0.3 (similarity exactly 0.7) is excluded at threshold
0.7 while a row at distance 0.1 is not, and the result respects the limit. -/
theorem claim_C4_similarity_witness :
    (DbRow.mk "run" "t2" 1 [3/10] []) ∉
      matchAbmInsights (fun a _ => a.headD 0)
        [DbRow.mk "run" "t2" 1 [3/10] [], DbRow.mk "run" "t1" 0 [1/10] []]
        [] (7/10) 5 none ∧
    (matchAbmInsights (fun a _ => a.headD 0)
        [DbRow.mk "run" "t2" 1 [3/10] [], DbRow.mk "run" "t1" 0 [1/10] []]
        [] (7/10) 5 none).length ≤ 5 := by
  refine ⟨?_, ?_⟩
  · exact (claim_C4_similarity (fun a _ => a.headD 0)
      [DbRow.mk "run" "t2" 1 [3/10] [], DbRow.mk "run" "t1" 0 [1/10] []]
      [] none).2.1 _ (List.mem_cons_self _ _)
      (show (1 : ℚ) - 3/10 = 7/10 by norm_num)
  · exact (claim_C4_similarity (fun a _ => a.headD 0)
      [DbRow.mk "run" "t2" 1 [3/10] [], DbRow.mk "run" "t1" 0 [1/10] []]
      [] none).2.2.2

/-! ## Claims C5, C6, C10: chunk assembly and persisted records -/

theorem zip_map_text (ycs : List Citation) :
    (ycs.map (fun c => c.text)).zip ycs = ycs.map (fun c => (c.text, c)) := by
  induction ycs with
  | nil => rfl
  | cons c cs ih => simp [ih]

/-- Claim C5 counterexample: for a profile whose metadata carries a present
but empty about field, the about chunk the claim predicts is not produced by
the code (JavaScript truthiness skips the empty string). -/
theorem claim_C5_counterexample :
    buildChunks (ScrapedCompanyData.mk "N" "D" "n.com"
        (some (ScrapeMeta.mk none none (some "")))) []
      ≠ claimedChunks (ScrapedCompanyData.mk "N" "D" "n.com"
        (some (ScrapeMeta.mk none none (some "")))) [] := by
  decide

/-- Claim C5 (amended): chunks are produced in order name+description chunk
(when the description is non-empty), then the about chunk (when the about
field is present AND non-empty), then one chunk per external citation with
its own text and metadata; and an empty chunk list stops the pipeline with
the "no content" error before any external call, in particular before any
embedding call. -/
theorem claim_C5_chunks (env : RagEnv) (runId company : String)
    (d : ScrapedCompanyData) (ycs : List Citation) :
    buildChunks d ycs = amendedChunks d ycs ∧
    (buildTextChunks d ycs = [] →
      runCore env runId company d ycs = (.error "No text chunks to process", [])) := by
  constructor
  · cases hb1 : truthyStr d.description <;> cases hb2 : optTruthy (metadataAbout d) <;>
      simp [buildChunks, buildTextChunks, buildChunkCitations, amendedChunks,
        hb1, hb2, zip_map_text]
  · intro h
    unfold runCore
    simp [h]

/-- Witness for claim C5 (amended) at a profile with empty description, no
metadata and no citations: the chunk lists agree and the pipeline stops with
the no-content error having made no external call. -/
theorem claim_C5_chunks_witness :
    buildChunks (ScrapedCompanyData.mk "A" "" "a.com" none) []
      = amendedChunks (ScrapedCompanyData.mk "A" "" "a.com" none) [] ∧
    runCore ragEnvOk "r" "A" (ScrapedCompanyData.mk "A" "" "a.com" none) []
      = (.error "No text chunks to process", []) :=
  ⟨(claim_C5_chunks ragEnvOk "r" "A" (ScrapedCompanyData.mk "A" "" "a.com" none) []).1,
   (claim_C5_chunks ragEnvOk "r" "A" (ScrapedCompanyData.mk "A" "" "a.com" none) []).2
     (by decide)⟩

/-- Claim C6 counterexample: a citation whose URL is the empty string is still
persisted as a singleton citations list, not as the empty list the claim
predicts (a defined JavaScript object is truthy regardless of its url field). -/
theorem claim_C6_counterexample :
    (Citation.mk "x" "" none).url = "" ∧
    (mkRecords "run" ["t"] [] [Citation.mk "x" "" none]).map (fun r => r.citations)
      = [[Citation.mk "x" "" none]] ∧
    ([[Citation.mk "x" "" none]] : List (List Citation)) ≠ [[]] := by
  refine ⟨rfl, by decide, by decide⟩

/-- Claim C6 (amended): the record persisted for chunk i carries chunk_index i
and the embedding and citation at position i of the input lists; its citations
field is the singleton of the position-i citation whenever one exists there
(regardless of its URL), and the empty list exactly when the citation list is
shorter than i+1. -/
theorem claim_C6_records (runId : String) (texts : List String)
    (embs : List (List ℚ)) (cits : List Citation) (i : ℕ)
    (hi : i < texts.length) :
    ∃ r, (mkRecords runId texts embs cits)[i]? = some r ∧
      r.run_id = runId ∧ r.chunk_index = i ∧ r.text = (texts[i]?).getD "" ∧
      r.embedding = embs[i]? ∧
      (∀ c, cits[i]? = some c → r.citations = [c]) ∧
      (cits[i]? = none → r.citations = []) := by
  refine ⟨⟨runId, (texts[i]?).getD "", i, embs[i]?,
      (match cits[i]? with | some c => [c] | none => [])⟩,
    ?_, rfl, rfl, rfl, rfl, ?_, ?_⟩
  · unfold mkRecords
    rw [List.getElem?_map, List.getElem?_range hi]
    rfl
  · intro c hc
    simp [hc]
  · intro hc
    simp [hc]

/-- Witness for claim C6 (amended) at a one-chunk input whose citation has an
empty URL. -/
theorem claim_C6_records_witness :
    ∃ r, (mkRecords "run" ["t"] [] [Citation.mk "x" "" none])[0]? = some r ∧
      r.run_id = "run" ∧ r.chunk_index = 0 ∧ r.text = ((["t"][0]?)).getD "" ∧
      r.embedding = ([] : List (List ℚ))[0]? ∧
      (∀ c, ([Citation.mk "x" "" none][0]?) = some c → r.citations = [c]) ∧
      (([Citation.mk "x" "" none][0]?) = none → r.citations = []) :=
  claim_C6_records "run" ["t"] [] [Citation.mk "x" "" none] 0 (by decide)

/-- Claim C10: the chunk text list and chunk citation list are always the same
length, so for every persisted record the position-i citation exists and the
citations field is a non-empty singleton: the empty-list branch of the persist
step is unreachable from the pipeline. -/
theorem claim_C10_lockstep (runId : String) (d : ScrapedCompanyData)
    (ycs : List Citation) (embs : List (List ℚ)) :
    (buildTextChunks d ycs).length = (buildChunkCitations d ycs).length ∧
    ∀ r ∈ mkRecords runId (buildTextChunks d ycs) embs (buildChunkCitations d ycs),
      ∃ c, r.citations = [c] := by
  have hlen : (buildTextChunks d ycs).length = (buildChunkCitations d ycs).length := by
    cases hb1 : truthyStr d.description <;> cases hb2 : optTruthy (metadataAbout d) <;>
      simp [buildTextChunks, buildChunkCitations, hb1, hb2]
  refine ⟨hlen, ?_⟩
  intro r hr
  unfold mkRecords at hr
  rcases List.mem_map.mp hr with ⟨i, hi, rfl⟩
  have hi2 : i < (buildTextChunks d ycs).length := List.mem_range.mp hi
  have hi3 : i < (buildChunkCitations d ycs).length := by
    rw [← hlen]
    exact hi2
  have hc : (buildChunkCitations d ycs)[i]?
      = some ((buildChunkCitations d ycs).get ⟨i, hi3⟩) :=
    List.getElem?_eq_getElem hi3
  refine ⟨(buildChunkCitations d ycs).get ⟨i, hi3⟩, ?_⟩
  simp [hc]

/-- Witness for claim C10 at a one-chunk profile: the single persisted record
carries a singleton citations list. -/
theorem claim_C10_lockstep_witness :
    ∃ c, (InsertRecord.mk "run"
        (descChunkText (ScrapedCompanyData.mk "A" "D" "a.com" none)) 0 none
        [syntheticCitation (ScrapedCompanyData.mk "A" "D" "a.com" none)]).citations
      = [c] :=
  (claim_C10_lockstep "run" (ScrapedCompanyData.mk "A" "D" "a.com" none) [] []).2
    _ (by decide)

/-! ## Claims C9 and C2: totality of retrieval, pipeline fallback -/

theorem truthyStr_true_of_ne (s : String) (h : s ≠ "") : truthyStr s = true := by
  unfold truthyStr
  rw [show (s == "") = false from beq_eq_false_iff_ne.mpr h]
  rfl

/-- Claim C9: similaritySearch never raises: a thrown rpc call or a thrown
fallback query yields the empty chunk list; the raw-records fallback listing
runs exactly when the rpc returns an error value without throwing; and a
retrieval failure feeds an empty context block and empty citation list to
generation, completing the pipeline normally instead of producing the
pipeline-level fallback artifact. -/
theorem claim_C9_retrieval_total (env : RagEnv) (q : List ℚ)
    (runId company : String) (limit : Nat) (d : ScrapedCompanyData)
    (ycs : List Citation) :
    (∀ e, env.searchRpc q runId limit = .throw e →
      similaritySearchM env q runId limit = ([], [Ev.rpcCall])) ∧
    (∀ data err e2, env.searchRpc q runId limit = .ret data (some err) →
      env.fallbackQuery runId limit = .error e2 →
      similaritySearchM env q runId limit
        = ([], [Ev.rpcCall, Ev.fallbackQueryCall])) ∧
    (Ev.fallbackQueryCall ∈ (similaritySearchM env q runId limit).2 ↔
      ∃ data err, env.searchRpc q runId limit = .ret data (some err)) ∧
    mkContext [] = "" ∧ dedupCitations [] = [] ∧
    (∀ embs qemb e content p,
      (buildTextChunks d ycs).isEmpty = false →
      env.embedBatch (buildTextChunks d ycs) = .ok embs →
      env.insertRecords (mkRecords runId (buildTextChunks d ycs) embs
        (buildChunkCitations d ycs)) = .ok () →
      env.embedQuery (generateRAGContext company) = .ok qemb →
      env.searchRpc qemb runId 5 = .throw e →
      env.generate (generateInsights company
        ("Company: " ++ d.name ++ "\n" ++ d.description ++ "\n\n" ++ mkContext [])
        (dedupCitations [])) = .ok (some content) →
      env.parseInsights content = .ok p →
      runCore env runId company d ycs
        = (.ok (backfillCitations p (dedupCitations [])),
           [Ev.embedBatchCall, Ev.insertCall, Ev.queryEmbedCall, Ev.rpcCall,
            Ev.generateCall]) ∧
      runRAGPipeline env runId company d ycs
        = backfillCitations p (dedupCitations [])) := by
  refine ⟨?_, ?_, ?_, rfl, rfl, ?_⟩
  · intro e he
    unfold similaritySearchM
    rw [he]
  · intro data err e2 h1 h2
    simp [similaritySearchM, h1, h2]
  · constructor
    · intro hmem
      cases hrpc : env.searchRpc q runId limit with
      | throw e => simp [similaritySearchM, hrpc] at hmem
      | ret data err =>
        cases err with
        | some e => exact ⟨data, e, rfl⟩
        | none => simp [similaritySearchM, hrpc] at hmem
    · rintro ⟨data, err, hrpc⟩
      cases hfb : env.fallbackQuery runId limit with
      | error e2 => simp [similaritySearchM, hrpc, hfb]
      | ok rows => simp [similaritySearchM, hrpc, hfb]
  · intro embs qemb e content p hne hemb hins hqe hrpc hgen hparse
    have hcore : runCore env runId company d ycs
        = (.ok (backfillCitations p (dedupCitations [])),
           [Ev.embedBatchCall, Ev.insertCall, Ev.queryEmbedCall, Ev.rpcCall,
            Ev.generateCall]) := by
      unfold runCore
      simp [similaritySearchM, hne, hemb, hins, hqe, hrpc, hgen, hparse]
    refine ⟨hcore, ?_⟩
    unfold runRAGPipeline
    rw [hcore]

/-- Witness for claim C9: with an rpc that throws, retrieval returns the
empty list, the fallback listing never runs, and the context block is empty. -/
theorem claim_C9_retrieval_total_witness :
    similaritySearchM ragEnvRpcThrows [] "r" 5 = ([], [Ev.rpcCall]) ∧
    Ev.fallbackQueryCall ∉ (similaritySearchM ragEnvRpcThrows [] "r" 5).2 ∧
    mkContext [] = "" := by
  have h := claim_C9_retrieval_total ragEnvRpcThrows [] "r" "A" 5 acmeProfile []
  refine ⟨h.1 "rpc down" rfl, ?_, h.2.2.2.1⟩
  intro hmem
  rcases h.2.2.1.mp hmem with ⟨data, err, heq⟩
  simp [ragEnvRpcThrows, ragEnvOk] at heq

/-- Claim C2 counterexample: the claim lists "retrieval fails" among the
failures converted to the fallback artifact, but a retrieval failure (the
similarity rpc throwing) is absorbed inside similaritySearch: the pipeline
proceeds with an empty context block and returns the generated output, which
differs from the fallback insights. -/
theorem claim_C2_counterexample :
    ragEnvRpcThrows.searchRpc [(1 : ℚ)] "r1" 5 = .throw "rpc down" ∧
    runRAGPipeline ragEnvRpcThrows "r1" "Acme"
        (ScrapedCompanyData.mk "Acme" "D" "acme.com" none) []
      = PartialInsights.mk (some []) (some "s") (some "b") (some []) ∧
    PartialInsights.mk (some []) (some "s") (some "b") (some [])
      ≠ fallbackInsights (ScrapedCompanyData.mk "Acme" "D" "acme.com" none) [] :=
  ⟨rfl, rfl, by decide⟩

/-- Claim C2 (amended): for every failure that reaches the outer catch of
runRAGPipeline — no chunks to build, the embedding call, the persistence
insert, the generation call or the JSON parse failing — the handler receives
the fallback insights artifact and still marks the run completed with that
artifact persisted in the result payload.  A retrieval failure never reaches
that catch: similaritySearch absorbs it and the pipeline returns the
generated output instead. -/
theorem claim_C2_fallback (env : RouteEnv) (company domain runId : String)
    (d : ScrapedCompanyData) (ycs : List Citation) (e : String)
    (hc : company ≠ "") (hd : domain ≠ "")
    (hcreate : env.createRun = .ok (some runId))
    (hscrape : env.scrapeOutcome = .ok d)
    (hyou : env.youcom = .ok ycs)
    (hfail : (runCore env.rag runId company d ycs).1 = .error e)
    (hupd : env.updateCompleted = .ok) :
    (handlePOST env company domain).1
      = .success runId company domain (fallbackInsights d ycs) d ycs.length ∧
    (handlePOST env company domain).2
      = [⟨company, domain, .processing, none⟩,
         ⟨company, domain, .completed,
          some ⟨fallbackInsights d ycs, d, ycs.length⟩⟩] := by
  have hcb : (company == "") = false := beq_eq_false_iff_ne.mpr hc
  have hdb : (domain == "") = false := beq_eq_false_iff_ne.mpr hd
  have hpipe : runRAGPipeline env.rag runId company d ycs
      = fallbackInsights d ycs := by
    unfold runRAGPipeline
    rw [hfail]
  constructor <;>
    simp [handlePOST, hcb, hdb, hcreate, hscrape, hyou, hupd, hpipe]

/-- Witness for claim C2 at the example scenario of spec section 8: Acme with
empty description, empty metadata and zero citations produces exactly the
claimed fallback artifact and the run completes with it persisted. -/
theorem claim_C2_fallback_witness :
    (handlePOST routeEnvAcme "Acme" "acme.com").1
      = .success "r1" "Acme" "acme.com" (fallbackInsights acmeProfile [])
          acmeProfile 0 ∧
    (fallbackInsights acmeProfile []).insights
      = some ["Company: Acme", "Domain: acme.com",
          "Research completed with available data"] ∧
    (fallbackInsights acmeProfile []).email_subject
      = some "Opportunity for Acme" ∧
    (∃ rest, (fallbackInsights acmeProfile []).email_body
      = some ("Hello Acme team" ++ rest)) ∧
    (fallbackInsights acmeProfile []).citations = some [] ∧
    (handlePOST routeEnvAcme "Acme" "acme.com").2
      = [⟨"Acme", "acme.com", .processing, none⟩,
         ⟨"Acme", "acme.com", .completed,
          some ⟨fallbackInsights acmeProfile [], acmeProfile, 0⟩⟩] := by
  have h := claim_C2_fallback routeEnvAcme "Acme" "acme.com" "r1" acmeProfile []
    "No text chunks to process" (by decide) (by decide) rfl rfl rfl rfl rfl
  exact ⟨h.1, rfl, rfl,
    ⟨",\n\nI wanted to reach out regarding potential collaboration opportunities.\n\nBest regards",
      rfl⟩, rfl, h.2⟩

/-! ## Claims C1, C7, C8: handler-level behavior -/

theorem scrapeFallback_desc_ne (domain : String) :
    (scrapeFallback domain).description ≠ "" := by
  intro h
  have hlen : ("Company information for " ++ cleanDomain domain).length
      = ("" : String).length := congrArg String.length h
  rw [String.length_append] at hlen
  have h24 : ("Company information for " : String).length = 24 := rfl
  have h0 : ("" : String).length = 0 := rfl
  omega

/-- Claim C1: with a run record created, the handler returns a success result
whose insights carry all four ABMInsights fields even when the scraper, the
research client, the embedder, the vector store and the generation call all
fail. -/
theorem claim_C1_all_fail (env : RouteEnv) (company domain runId : String)
    (hc : company ≠ "") (hd : domain ≠ "")
    (hcreate : env.createRun = .ok (some runId))
    (hscrape : ∃ e, env.scrapeOutcome = Except.error e)
    (hyou : ∃ e, env.youcom = Except.error e)
    (hembed : ∀ ts, ∃ e, env.rag.embedBatch ts = .error e)
    (hinsert : ∀ rs, ∃ e, env.rag.insertRecords rs = .error e)
    (hqemb : ∀ s, ∃ e, env.rag.embedQuery s = .error e)
    (hrpc : ∀ q r n, ∃ e, env.rag.searchRpc q r n = .throw e)
    (hfb : ∀ r n, ∃ e, env.rag.fallbackQuery r n = .error e)
    (hgen : ∀ p, ∃ e, env.rag.generate p = .error e)
    (hupd : env.updateCompleted = .ok) :
    (handlePOST env company domain).1
      = .success runId company domain
          (fallbackInsights (scrapeFallback domain) []) (scrapeFallback domain) 0 ∧
    (fallbackInsights (scrapeFallback domain) []).insights.isSome ∧
    (fallbackInsights (scrapeFallback domain) []).email_subject.isSome ∧
    (fallbackInsights (scrapeFallback domain) []).email_body.isSome ∧
    (fallbackInsights (scrapeFallback domain) []).citations.isSome := by
  rcases hscrape with ⟨es, hes⟩
  rcases hyou with ⟨ey, hey⟩
  have hne : (buildTextChunks (scrapeFallback domain) []).isEmpty = false := by
    unfold buildTextChunks
    rw [truthyStr_true_of_ne _ (scrapeFallback_desc_ne domain)]
    simp
  rcases hembed (buildTextChunks (scrapeFallback domain) []) with ⟨e1, he1⟩
  have hcore : (runCore env.rag runId company (scrapeFallback domain) []).1
      = .error e1 := by
    unfold runCore
    simp [hne, he1]
  have hpipe : runRAGPipeline env.rag runId company (scrapeFallback domain) []
      = fallbackInsights (scrapeFallback domain) [] := by
    unfold runRAGPipeline
    rw [hcore]
  have hcb : (company == "") = false := beq_eq_false_iff_ne.mpr hc
  have hdb : (domain == "") = false := beq_eq_false_iff_ne.mpr hd
  refine ⟨?_, rfl, rfl, rfl, rfl⟩
  simp [handlePOST, hcb, hdb, hcreate, hes, hey, hupd, hpipe]

/-- Witness for claim C1: the all-collaborators-fail environment still
produces a success response with all four insight fields populated. -/
theorem claim_C1_all_fail_witness :
    (handlePOST routeEnvAllFail "Acme" "acme.com").1
      = .success "r1" "Acme" "acme.com"
          (fallbackInsights (scrapeFallback "acme.com") [])
          (scrapeFallback "acme.com") 0 ∧
    (fallbackInsights (scrapeFallback "acme.com") []).insights.isSome ∧
    (fallbackInsights (scrapeFallback "acme.com") []).email_subject.isSome ∧
    (fallbackInsights (scrapeFallback "acme.com") []).email_body.isSome ∧
    (fallbackInsights (scrapeFallback "acme.com") []).citations.isSome :=
  claim_C1_all_fail routeEnvAllFail "Acme" "acme.com" "r1" (by decide) (by decide)
    rfl ⟨"fetch failed", rfl⟩ ⟨"youcom failed", rfl⟩
    (fun _ => ⟨"embed down", rfl⟩) (fun _ => ⟨"insert down", rfl⟩)
    (fun _ => ⟨"embed down", rfl⟩) (fun _ _ _ => ⟨"rpc down", rfl⟩)
    (fun _ _ => ⟨"select down", rfl⟩) (fun _ => ⟨"generate down", rfl⟩) rfl

/-- The run-row history of one POST call takes one of four shapes: no row
created, processing then completed with a payload, processing only, or
processing then failed without a payload. -/
theorem handlePOST_hist_shape (env : RouteEnv) (company domain : String) :
    (handlePOST env company domain).2 = [] ∨
    (∃ fr, (handlePOST env company domain).2
        = [⟨company, domain, .processing, none⟩,
           ⟨company, domain, .completed, some fr⟩]) ∨
    (handlePOST env company domain).2 = [⟨company, domain, .processing, none⟩] ∨
    (handlePOST env company domain).2
        = [⟨company, domain, .processing, none⟩,
           ⟨company, domain, .failed, none⟩] := by
  unfold handlePOST
  cases hcd : (company == "" || domain == "") with
  | true => exact Or.inl rfl
  | false =>
    cases hcr : env.createRun with
    | error e => exact Or.inl rfl
    | ok o =>
      cases o with
      | none => exact Or.inl rfl
      | some runId =>
        cases hu : env.updateCompleted with
        | ok => exact Or.inr (Or.inl ⟨_, rfl⟩)
        | errVal => exact Or.inr (Or.inr (Or.inl rfl))
        | throw e =>
          cases hu2 : env.updateFailed with
          | ok => exact Or.inr (Or.inr (Or.inr rfl))
          | errVal => exact Or.inr (Or.inr (Or.inl rfl))
          | throw e2 => exact Or.inr (Or.inr (Or.inl rfl))

/-- Claim C7: the run status only ever transitions from processing to
completed or failed, a state after the first is never processing again, and
the result payload is non-null exactly when the status is completed. -/
theorem claim_C7_lifecycle (env : RouteEnv) (company domain : String) :
    List.Chain' (fun a b => a.status = RunStatus.processing ∧
        (b.status = RunStatus.completed ∨ b.status = RunStatus.failed))
      (handlePOST env company domain).2 ∧
    (∀ hd tl, (handlePOST env company domain).2 = hd :: tl →
      hd.status = RunStatus.processing ∧
        ∀ r ∈ tl, r.status ≠ RunStatus.processing) ∧
    (∀ r ∈ (handlePOST env company domain).2,
      (r.result.isSome ↔ r.status = RunStatus.completed)) := by
  rcases handlePOST_hist_shape env company domain with h | ⟨fr, h⟩ | h | h <;> rw [h]
  · exact ⟨List.chain'_nil,
      fun hd tl heq => List.noConfusion heq,
      fun r hr => absurd hr (List.not_mem_nil r)⟩
  · refine ⟨?_, ?_, ?_⟩
    · exact List.chain'_cons.mpr ⟨⟨rfl, Or.inl rfl⟩, List.chain'_singleton _⟩
    · intro hd tl heq
      injection heq with h1 h2
      subst h1
      subst h2
      refine ⟨rfl, ?_⟩
      intro r hr
      rcases List.mem_singleton.mp hr with rfl
      simp
    · intro r hr
      rcases List.mem_cons.mp hr with rfl | hr2
      · simp
      · rcases List.mem_singleton.mp hr2 with rfl
        simp
  · refine ⟨List.chain'_singleton _, ?_, ?_⟩
    · intro hd tl heq
      injection heq with h1 h2
      subst h1
      subst h2
      exact ⟨rfl, fun r hr => absurd hr (List.not_mem_nil r)⟩
    · intro r hr
      rcases List.mem_singleton.mp hr with rfl
      simp
  · refine ⟨?_, ?_, ?_⟩
    · exact List.chain'_cons.mpr ⟨⟨rfl, Or.inr rfl⟩, List.chain'_singleton _⟩
    · intro hd tl heq
      injection heq with h1 h2
      subst h1
      subst h2
      refine ⟨rfl, ?_⟩
      intro r hr
      rcases List.mem_singleton.mp hr with rfl
      simp
    · intro r hr
      rcases List.mem_cons.mp hr with rfl | hr2
      · simp
      · rcases List.mem_singleton.mp hr2 with rfl
        simp

/-- Witness for claim C7 at the Acme run: valid transition chain, the second
state is not processing, and the initial processing state has a null result. -/
theorem claim_C7_lifecycle_witness :
    List.Chain' (fun a b => a.status = RunStatus.processing ∧
        (b.status = RunStatus.completed ∨ b.status = RunStatus.failed))
      (handlePOST routeEnvAcme "Acme" "acme.com").2 ∧
    (RunRow.mk "Acme" "acme.com" RunStatus.completed
        (some ⟨fallbackInsights acmeProfile [], acmeProfile, 0⟩)).status
      ≠ RunStatus.processing ∧
    ((RunRow.mk "Acme" "acme.com" RunStatus.processing none).result.isSome ↔
      (RunRow.mk "Acme" "acme.com" RunStatus.processing none).status
        = RunStatus.completed) := by
  have h := claim_C7_lifecycle routeEnvAcme "Acme" "acme.com"
  refine ⟨h.1, ?_, ?_⟩
  · exact (h.2.1 (RunRow.mk "Acme" "acme.com" RunStatus.processing none)
      [RunRow.mk "Acme" "acme.com" RunStatus.completed
        (some ⟨fallbackInsights acmeProfile [], acmeProfile, 0⟩)] rfl).2 _
      (List.mem_singleton.mpr rfl)
  · exact h.2.2 _ (List.mem_cons_self _ _)

/-- Claim C8 counterexample: when the completed-status write throws after a
successful pipeline, the run is marked failed but the handler responds with a
structured error object carrying no insights at all, not with a fallback
insight object as the claim states. -/
theorem claim_C8_counterexample :
    (handlePOST routeEnvUpdateThrows "Acme" "acme.com").1
      = .processFailed "r1" "db down" ∧
    ((handlePOST routeEnvUpdateThrows "Acme" "acme.com").2.map
      (fun r => r.status)) = [RunStatus.processing, RunStatus.failed] ∧
    respInsights (handlePOST routeEnvUpdateThrows "Acme" "acme.com").1 = none :=
  ⟨rfl, rfl, rfl⟩

/-- Claim C8 (amended): when an unrecovered exception escapes the inner try
block after the run is created (the only such point being the completed-status
write), the run is marked failed and the handler returns a structured error
response carrying the run id and no insight object. -/
theorem claim_C8_amended (env : RouteEnv) (company domain runId e : String)
    (hc : company ≠ "") (hd : domain ≠ "")
    (hcreate : env.createRun = .ok (some runId))
    (hthrow : env.updateCompleted = .throw e)
    (hfailed : env.updateFailed = .ok) :
    (handlePOST env company domain).1 = .processFailed runId e ∧
    ((handlePOST env company domain).2.map (fun r => r.status))
      = [RunStatus.processing, RunStatus.failed] ∧
    ((handlePOST env company domain).2.map (fun r => r.result)) = [none, none] ∧
    respInsights (handlePOST env company domain).1 = none := by
  have hcb : (company == "") = false := beq_eq_false_iff_ne.mpr hc
  have hdb : (domain == "") = false := beq_eq_false_iff_ne.mpr hd
  refine ⟨?_, ?_, ?_, ?_⟩ <;>
    simp [handlePOST, hcb, hdb, hcreate, hthrow, hfailed, respInsights]

/-- Witness for claim C8 (amended) at the concrete throwing environment. -/
theorem claim_C8_amended_witness :
    (handlePOST routeEnvUpdateThrows "Acme" "acme.com").1
      = .processFailed "r1" "db down" ∧
    ((handlePOST routeEnvUpdateThrows "Acme" "acme.com").2.map
      (fun r => r.status)) = [RunStatus.processing, RunStatus.failed] ∧
    ((handlePOST routeEnvUpdateThrows "Acme" "acme.com").2.map
      (fun r => r.result)) = [none, none] ∧
    respInsights (handlePOST routeEnvUpdateThrows "Acme" "acme.com").1 = none :=
  claim_C8_amended routeEnvUpdateThrows "Acme" "acme.com" "r1" "db down"
    (by decide) (by decide) rfl rfl rfl

end ABM
